import Mathlib

/-!
Verification of the `sync_merkle` Merkle-Patricia trie differ.

Shallow embedding of `src/lib.rs` (`merkle_diff`, `diff_nodes`,
`full_node_to_node_diff`), `src/types.rs` (`NodeDiff`, `Entry`) and
`src/encoding.rs` (the hex-prefixed JSON wire codec: `visit_str`, the
`EntryOwned` map visitor, serialization).

Modelling conventions:
- byte sequences are `List Nat` with values understood modulo 256;
- a `NibbleSlice` is its sequence of 4-bit units (`List Nat`), since the
  library type is consumed only through `iter`, `new`, and `new_composed`;
  `new_composed` concatenates and `new` expands each byte into two nibbles
  (high first);
- Rust panics (`unwrap`, `unimplemented!()`, out-of-bounds slicing) are
  modelled as `none`, so fallible paths return `Option`;
- the external store lookup `db.get` and codec `Codec::decode` are
  parameters (`resolve`, `decode`), as in the Rust signature they are
  generic collaborators;
- `EntryOwned`/`NodeDiffOwned` carry the same data as the borrowed forms
  (`NibbleOwned.inner` is exactly the collected nibble sequence), so a
  single `Entry`/`NodeDiff` type models both.
-/

namespace SyncMerkle

abbrev Bytes := List Nat

abbrev Hash := List Nat

/-- A nibble path: sequence of 4-bit units, the view `NibbleSlice.iter` gives. -/
abbrev Nibbles := List Nat

/-- trie_db `NibbleSlice::new_composed`: prefix nibbles followed by suffix nibbles. -/
def new_composed (a b : Nibbles) : Nibbles := a ++ b

/-- trie_db `NibbleSlice::new(bytes)` collected to nibbles: each byte yields
its high nibble then its low nibble. -/
def bytesToNibbles (bs : Bytes) : Nibbles :=
  bs.flatMap (fun b => [b % 256 / 16, b % 16])

/-- trie_db `Node`: `Empty`, `Leaf(partial, value)`, `Extension(partial, child)`,
`Branch([Option<child>; 16], Option<value>)`. Children are the raw encoded
child references (byte slices), exactly what the Rust code stores. -/
inductive Node where
  | empty : Node
  | leaf (path : Nibbles) (data : Bytes) : Node
  | extension (path : Nibbles) (data : Bytes) : Node
  | branch (children : List (Option Bytes)) (inline : Option Bytes) : Node
deriving DecidableEq, Repr

/-- `types.rs` `Entry`: `{ key: NibbleSlice, value: &[u8] }`. -/
structure Entry where
  key : Nibbles
  value : Bytes
deriving DecidableEq, Repr

/-- `types.rs` `NodeDiff`: added and removed entries. -/
structure NodeDiff where
  added_entries : List Entry
  removed_entries : List Entry
deriving DecidableEq, Repr

/-- `NodeDiff::default()`: both sequences empty. -/
def NodeDiff.default : NodeDiff := ⟨[], []⟩

/-- `NodeDiff::is_empty`. -/
def NodeDiff.is_empty (d : NodeDiff) : Bool :=
  d.added_entries.isEmpty && d.removed_entries.isEmpty

/-- `lib.rs` `full_node_to_node_diff`: flattens one node into entries and puts
them on the added (`added = true`) or removed side. Note the code pushes a
Branch child reference itself as a value, keyed by the bare prefix, and an
Extension's child reference likewise at the composed path; nothing is
resolved through the store (the function has no store parameter). -/
def full_node_to_node_diff (nibble : Nibbles) (node : Node) (added : Bool) :
    NodeDiff :=
  let changed_entries : List Entry :=
    match node with
    | .leaf inner_nibble data => [⟨new_composed nibble inner_nibble, data⟩]
    | .extension inner_nibble data => [⟨new_composed nibble inner_nibble, data⟩]
    | .branch children immediate =>
        (children.filterMap id).map (fun child => ⟨nibble, child⟩) ++
          (match immediate with
           | some immediate => [⟨nibble, immediate⟩]
           | none => [])
    | .empty => []
  match added with
  | true => ⟨changed_entries, []⟩
  | false => ⟨[], changed_entries⟩

/-- `lib.rs` `diff_nodes`: equality short-circuit, then the match over node
shape pairs. The Rust `unimplemented!()` catch-all is a panic, modelled as
`none`; every other arm is copied arm for arm (the `simple_to_simple!` macro
expands to one removed entry for the old side and one added entry for the
new side, payloads taken verbatim). -/
def diff_nodes (nibble : Nibbles) (old_node new_node : Node) :
    Option NodeDiff :=
  if old_node = new_node then some NodeDiff.default
  else
    match old_node, new_node with
    | .empty, n => some (full_node_to_node_diff nibble n true)
    | n, .empty => some (full_node_to_node_diff nibble n false)
    | .leaf po vo, .leaf pn vn =>
        some ⟨[⟨new_composed nibble pn, vn⟩], [⟨new_composed nibble po, vo⟩]⟩
    | .extension po vo, .leaf pn vn =>
        some ⟨[⟨new_composed nibble pn, vn⟩], [⟨new_composed nibble po, vo⟩]⟩
    | .leaf po vo, .extension pn vn =>
        some ⟨[⟨new_composed nibble pn, vn⟩], [⟨new_composed nibble po, vo⟩]⟩
    | .extension po vo, .extension pn vn =>
        some ⟨[⟨new_composed nibble pn, vn⟩], [⟨new_composed nibble po, vo⟩]⟩
    | .branch _ none, .branch _ (some value) =>
        some ⟨[⟨nibble, value⟩], []⟩
    | _, _ => none

/-- `lib.rs` `merkle_diff`: resolve and decode both roots (each `unwrap` is a
panic, hence `none`, on failure), diff at the empty prefix, wrap in a
one-element vector and filter out empty diffs. -/
def merkle_diff (resolve : Hash → Option Bytes) (decode : Bytes → Option Node)
    (old_root new_root : Hash) : Option (List NodeDiff) :=
  match resolve old_root with
  | none => none
  | some old_root_value =>
    match decode old_root_value with
    | none => none
    | some old_root_value_node =>
      match resolve new_root with
      | none => none
      | some new_root_value =>
        match decode new_root_value with
        | none => none
        | some new_root_value_node =>
          match diff_nodes [] old_root_value_node new_root_value_node with
          | none => none
          | some diff =>
              some (([diff]).filter (fun n => !(NodeDiff.is_empty n)))

/-- Byte content of the string `"0x"`. -/
def str0x : List Nat := [48, 120]

/-- Byte content of the field name `"key"`. -/
def keyField : List Nat := [107, 101, 121]

/-- Byte content of the field name `"value"`. -/
def valueField : List Nat := [118, 97, 108, 117, 101]

/-- The serde error kinds reachable from `encoding.rs`: `invalid_value`
(carrying the offending string), `unknown_field`, `duplicate_field`,
`missing_field`, and `custom` (wrapping a hex-decode failure). -/
inductive DeError where
  | invalidValue (s : List Nat) : DeError
  | unknownField (f : List Nat) : DeError
  | duplicateField (f : List Nat) : DeError
  | missingField (f : List Nat) : DeError
  | customError : DeError
deriving DecidableEq, Repr

deriving instance DecidableEq for Except

/-- Value of one hex digit character (rustc_hex accepts `0-9`, `a-f`, `A-F`). -/
def hexVal (c : Nat) : Option Nat :=
  if 48 ≤ c ∧ c ≤ 57 then some (c - 48)
  else if 97 ≤ c ∧ c ≤ 102 then some (c - 87)
  else if 65 ≤ c ∧ c ≤ 70 then some (c - 55)
  else none

/-- rustc_hex treats space, CR, LF and TAB as skippable inside hex input. -/
def isHexSpace (c : Nat) : Bool := c = 32 || c = 13 || c = 10 || c = 9

/-- Loop of rustc_hex `from_hex`: accumulate digit pairs into bytes, skip
whitespace, fail on any other character or on an odd digit count. -/
def from_hex_go : List Nat → Nat → Nat → List Nat → Option Bytes
  | [], modulus, _, acc => if modulus = 0 then some acc.reverse else none
  | c :: rest, modulus, buf, acc =>
      if isHexSpace c then from_hex_go rest modulus buf acc
      else
        match hexVal c with
        | none => none
        | some v =>
            if modulus = 1 then from_hex_go rest 0 0 (((buf * 16 + v) % 256) :: acc)
            else from_hex_go rest 1 ((buf * 16 + v) % 256) acc

/-- rustc_hex `from_hex` over the byte content of a string. -/
def from_hex (s : List Nat) : Option Bytes := from_hex_go s 0 0 []

/-- Lowercase hex digit character for a nibble value. -/
def hexDigitChar (n : Nat) : Nat := if n < 10 then 48 + n else 87 + n

/-- rustc_hex `to_hex`: each byte becomes two lowercase hex characters. -/
def to_hex (bs : Bytes) : List Nat :=
  bs.flatMap (fun b => [hexDigitChar (b % 256 / 16), hexDigitChar (b % 16)])

/-- `encoding.rs` `SerializePrefixedFormat for Vec<u8>`: the string
`"0x"` followed by the lowercase hex of the bytes. -/
def serialize_prefixed (bs : Bytes) : List Nat := str0x ++ to_hex bs

/-- `encoding.rs` `visit_str` of the `Vec<u8>` deserializer: `&s[0..2]`
panics (`none`) when the string is shorter than two bytes; a first-two-bytes
mismatch against `"0x"` is an `invalid_value` error; the remainder goes
through `from_hex`, whose failure becomes a `custom` error. -/
def visit_str (s : List Nat) : Option (Except DeError Bytes) :=
  if s.length < 2 then none
  else if s.take 2 ≠ str0x then some (Except.error (DeError.invalidValue s))
  else
    match from_hex (s.drop 2) with
    | none => some (Except.error DeError.customError)
    | some bs => some (Except.ok bs)

/-- Loop of `encoding.rs` `visit_map` for `EntryOwned`: walk the JSON object
fields in order, tracking the optional parsed `key` (as nibbles, via
`NibbleSlice::new` on the decoded bytes) and `value`; duplicate fields,
unknown fields and field-level failures abort, and after the loop a missing
field is an error. A panic inside `visit_str` (`none`) propagates. -/
def visit_map_loop :
    List (List Nat × List Nat) → Option Nibbles → Option Bytes →
      Option (Except DeError Entry)
  | [], val_key, val_value =>
      match val_key with
      | none => some (Except.error (DeError.missingField keyField))
      | some k =>
          match val_value with
          | none => some (Except.error (DeError.missingField valueField))
          | some v => some (Except.ok ⟨k, v⟩)
  | (fname, fval) :: rest, val_key, val_value =>
      if fname = keyField then
        if val_key.isSome then some (Except.error (DeError.duplicateField keyField))
        else
          match visit_str fval with
          | none => none
          | some (Except.error e) => some (Except.error e)
          | some (Except.ok bs) =>
              visit_map_loop rest (some (bytesToNibbles bs)) val_value
      else if fname = valueField then
        if val_value.isSome then some (Except.error (DeError.duplicateField valueField))
        else
          match visit_str fval with
          | none => none
          | some (Except.error e) => some (Except.error e)
          | some (Except.ok bs) => visit_map_loop rest val_key (some bs)
      else some (Except.error (DeError.unknownField fname))

/-- `encoding.rs` `DeserializePrefixedFormat for EntryOwned`, applied to a
JSON object given as its ordered field list (field name bytes, string
value bytes). -/
def deserialize_entry (fields : List (List Nat × List Nat)) :
    Option (Except DeError Entry) :=
  visit_map_loop fields none none

/-- `encoding.rs` `SerializePrefixedFormat for EntryOwned`: the `key` field
serializes `NibbleOwned.inner` (the nibble sequence, one nibble per byte)
hex-prefixed, then the `value` field serializes the value bytes. -/
def serialize_entry (e : Entry) : List (List Nat × List Nat) :=
  [(keyField, serialize_prefixed e.key), (valueField, serialize_prefixed e.value)]

/-- A store in which no hash resolves (models a backing store missing the
root). -/
def noResolve : Hash → Option Bytes := fun _ => none

/-- A codec that decodes nothing. -/
def noDecode : Bytes → Option Node := fun _ => none

/-- A store in which every hash resolves to the empty byte string. -/
def unitResolve : Hash → Option Bytes := fun _ => some []

/-- A codec decoding everything to the `Empty` node. -/
def unitDecode : Bytes → Option Node := fun _ => some Node.empty

/-- C8: comparing two structurally equal nodes (same variant and field
values; for Extension and Branch these fields are the child references, not
decoded content) returns an empty Diff immediately. `diff_nodes` takes no
store at all, so no child is resolved or decoded. -/
theorem diff_nodes_equal_nodes_empty (nibble : Nibbles) (n : Node) :
    diff_nodes nibble n n = some ⟨[], []⟩ := by
  simp [diff_nodes, NodeDiff.default]

/-- C7: two Leaf nodes whose composed full keys coincide and whose payloads
differ diff to exactly one removed entry carrying the old payload and one
added entry carrying the new payload, both at the composed full key. -/
theorem leaf_leaf_same_key_replacement (nibble po pn : Nibbles) (vo vn : Bytes)
    (hkey : new_composed nibble po = new_composed nibble pn) (hval : vo ≠ vn) :
    diff_nodes nibble (Node.leaf po vo) (Node.leaf pn vn) =
      some ⟨[⟨new_composed nibble po, vn⟩], [⟨new_composed nibble po, vo⟩]⟩ := by
  have hne : Node.leaf po vo ≠ Node.leaf pn vn := by
    intro h
    injection h with h1 h2
    exact hval h2
  simp [diff_nodes, hne, hkey]

/-- Witness for C7 at nibble prefix `[]`, local paths `[1]`, payloads
`[0]` and `[1]`. -/
theorem leaf_leaf_same_key_replacement_witness :
    new_composed [] [1] = new_composed [] [1] ∧ ([0] : Bytes) ≠ [1] ∧
      diff_nodes [] (Node.leaf [1] [0]) (Node.leaf [1] [1]) =
        some ⟨[⟨new_composed [] [1], [1]⟩], [⟨new_composed [] [1], [0]⟩]⟩ :=
  ⟨rfl, by decide,
    leaf_leaf_same_key_replacement [] [1] [1] [0] [1] rfl (by decide)⟩

/-- C4 counterexample: with a store in which the root `[0]` cannot be
resolved, diffing `[0]` against itself does not return an empty result: the
first `unwrap` of the store lookup panics (modelled `none`), refuting the
claim that byte-equal roots short-circuit before any store access. -/
theorem merkle_diff_unresolvable_root_not_empty :
    ¬ (merkle_diff noResolve noDecode [0] [0] = some []) := by
  decide

/-- C4 amended: when the root resolves and decodes, diffing a root against
itself returns the empty result (both lookups and decodes still happen; the
empty diff is produced by the node-level equality short-circuit and then
filtered out). -/
theorem merkle_diff_same_resolvable_root (resolve : Hash → Option Bytes)
    (decode : Bytes → Option Node) (R : Hash) (b : Bytes) (n : Node)
    (h1 : resolve R = some b) (h2 : decode b = some n) :
    merkle_diff resolve decode R R = some [] := by
  simp [merkle_diff, h1, h2, diff_nodes, NodeDiff.default, NodeDiff.is_empty]

/-- Witness for the amended C4 at the trivially resolvable store. -/
theorem merkle_diff_same_resolvable_root_witness :
    unitResolve [] = some [] ∧ unitDecode [] = some Node.empty ∧
      merkle_diff unitResolve unitDecode [] [] = some [] :=
  ⟨rfl, rfl,
    merkle_diff_same_resolvable_root unitResolve unitDecode [] [] Node.empty
      rfl rfl⟩

/-- Sixteen absent branch child slots. -/
def children16none : List (Option Bytes) := List.replicate 16 none

/-- Sixteen branch child slots with a single child reference `[187]` at
slot 3. -/
def childrenAt3 : List (Option Bytes) :=
  [none, none, none, some [187]] ++ List.replicate 12 none

/-- C1 at concrete failing inputs: comparing `Empty` against an Extension
emits the Extension's child reference `[170]` itself as the added entry's
value (nothing is resolved or enumerated beneath it), and comparing `Empty`
against a Branch with one child emits the raw child reference `[187]` keyed
by the bare prefix `[]` rather than the slot-extended path `[3]`; the
symmetric `Empty`-new case mirrors this on the removed side. -/
theorem empty_vs_node_emits_child_hash :
    diff_nodes [] Node.empty (Node.extension [1] [170]) =
        some ⟨[⟨[1], [170]⟩], []⟩ ∧
      diff_nodes [] Node.empty (Node.branch childrenAt3 none) =
        some ⟨[⟨[], [187]⟩], []⟩ ∧
      diff_nodes [] (Node.extension [1] [170]) Node.empty =
        some ⟨[], [⟨[1], [170]⟩]⟩ := by
  decide

/-- C2 at concrete failing inputs: for Branch-vs-Branch the code only
recognises the inline-value transition none-to-some, returning just the
added inline entry while silently discarding the child lost from slot 3;
every other Branch-vs-Branch pair (here: same absent inline, differing
children) hits `unimplemented!()` and panics (`none`). -/
theorem branch_branch_ignores_children_and_panics :
    diff_nodes [] (Node.branch childrenAt3 none)
        (Node.branch children16none (some [7])) =
        some ⟨[⟨[], [7]⟩], []⟩ ∧
      diff_nodes [] (Node.branch childrenAt3 none)
        (Node.branch children16none none) = none := by
  decide

/-- C3 at a concrete failing input: comparing a Leaf against a Branch falls
through to the `unimplemented!()` catch-all and panics (`none`) instead of
returning the two-sided full enumeration the claim requires. -/
theorem leaf_vs_branch_panics :
    diff_nodes [] (Node.leaf [1] [2])
      (Node.branch children16none (some [7])) = none := by
  decide

/-- C6 at a concrete failing input: an Extension-vs-Leaf comparison emits
the Extension's child reference `[187]` directly as the removed entry's
value (no resolution, no enumeration beneath), contradicting the claim that
a child hash never appears as an entry value. -/
theorem extension_child_hash_emitted_as_value :
    diff_nodes [] (Node.extension [1] [187]) (Node.leaf [2] [5]) =
      some ⟨[⟨[2], [5]⟩], [⟨[1], [187]⟩]⟩ := by
  decide

/-- C5 at a concrete failing input: the Entry with the one-nibble key `[1]`
and empty value serializes its key one nibble per byte (string `"0x01"`),
but deserialization re-expands each decoded byte into two nibbles, so the
round trip returns the key `[0, 1]` and does not restore the Entry. -/
theorem entry_round_trip_changes_key :
    deserialize_entry (serialize_entry ⟨[1], []⟩) =
        some (Except.ok ⟨[0, 1], []⟩) ∧
      (⟨[0, 1], []⟩ : Entry) ≠ ⟨[1], []⟩ := by
  decide

/-- C9 at a concrete failing input: an Entry object whose `key` field holds
the one-byte string `"a"` — which does not begin with `"0x"` — makes
deserialization panic (`none`, the out-of-bounds slice of `&s[0..2]`)
instead of failing with the `invalid_value` error the claim requires. -/
theorem short_string_field_panics_not_invalid_value :
    deserialize_entry [(keyField, [97]), (valueField, str0x)] = none ∧
      visit_str [97] ≠ some (Except.error (DeError.invalidValue [97])) := by
  decide

/-- C10: every string shorter than two bytes panics in `visit_str` (the
unconditional `&s[0..2]` slice), and hence deserializing an Entry whose
`key` or `value` field holds such a string panics as well, rather than
returning the `invalid_value` error. -/
theorem visit_str_short_input_panics (s : List Nat) (h : s.length < 2) :
    visit_str s = none ∧
      deserialize_entry [(keyField, s), (valueField, str0x)] = none ∧
      deserialize_entry [(keyField, str0x), (valueField, s)] = none := by
  have hv : visit_str s = none := by simp [visit_str, h]
  have h0x : visit_str str0x = some (Except.ok []) := by decide
  refine ⟨hv, ?_, ?_⟩
  · simp [deserialize_entry, visit_map_loop, hv]
  · simp [deserialize_entry, visit_map_loop, hv, h0x, keyField, valueField]

/-- Witness for C10 at the one-byte string `"a"`. -/
theorem visit_str_short_input_panics_witness :
    ([97] : List Nat).length < 2 ∧
      (visit_str [97] = none ∧
        deserialize_entry [(keyField, [97]), (valueField, str0x)] = none ∧
        deserialize_entry [(keyField, str0x), (valueField, [97])] = none) :=
  ⟨by decide, visit_str_short_input_panics [97] (by decide)⟩

end SyncMerkle
